import Mathlib

/-!
Verification development for the kinsumer shard-consumption engine.

The embedding models, from the repository sources:
  * `kinsumer/bucket.py`   — `InMemoryBucket` (record buffering / batching policy),
  * `kinsumer/streams.py`  — `KinesisShard.__get_iterator`, `KinesisShard.__overhang`,
    and one iteration of `KinesisShard.dispatch` (the per-shard poll cycle),
  * `kinsumer/consumer.py` — `Consumer.do_transform` and the `ShardMonitor._run` tick,
  * `kinsumer/checkpointer.py` — the per-shard checkpoint slot written by
    `InMemoryCheckpointer.checkpoint` (a plain overwrite of the stored value).

Modelling conventions:
  * Sequence numbers are opaque strings in the source, monotonically increasing
    within a shard; they are modelled as naturals ordered by the shard order.
  * Arrival timestamps (`datetime`) are modelled as naturals (UTC instants);
    `now - ts > interval` becomes truncated natural subtraction, which agrees with
    the source because a timestamp in the future makes the Python comparison false
    and the truncated difference zero.
  * Exceptions are modelled explicitly: a fallible operation returns `Option`
    (`none` = the Python call raised), and a poll cycle that lets an exception
    escape `dispatch` ends in the `CycleResult.raised` constructor (in the source
    the exception is then caught by `KinesisShard._run`, logged via
    `Consumer.handle_exception`, and the greenlet terminates).
  * Wire calls (`get_records`, `get_shard_iterator`) are environment inputs: the
    fetch outcome is passed into the cycle, and an iterator acquisition is recorded
    as a descriptor of the request the engine makes rather than an opaque token.
-/

namespace Kinsumer

/-- Embedding of `streams.KinesisRecord` (streams.py lines 23–54): one stream
event with its shard id, sequence number (modelled as `Nat`, see module header),
and approximate arrival timestamp (modelled as `Nat`).  The opaque payload and
partition key play no role in any claim and are omitted from the model state. -/
structure KinesisRecord where
  shard_id : String
  sequence_number : Nat
  approximate_arrival_timestamp : Nat
  deriving DecidableEq

/-- Embedding of `bucket.InMemoryBucket` (bucket.py lines 34–67): the mutable
per-shard record buffer with its poll counter and the two advisory limits. -/
structure InMemoryBucket where
  data : List KinesisRecord
  count : Nat
  size_limit : Nat
  count_limit : Nat
  deriving DecidableEq

/-- `InMemoryBucket.flush` (bucket.py lines 41–43): clears the buffered records
and resets the poll counter. -/
def InMemoryBucket.flush (b : InMemoryBucket) : InMemoryBucket :=
  { b with data := [], count := 0 }

/-- `InMemoryBucket.__get` (bucket.py lines 62–67): returns the buffered list
together with the last record's sequence number and arrival timestamp.  The
source indexes `self.__data[-1]`, which raises `IndexError` when the buffer is
empty; that exception is modelled as `none`. -/
def InMemoryBucket.getPriv (b : InMemoryBucket) :
    Option (List KinesisRecord × Nat × Nat) :=
  match b.data.getLast? with
  | none => none
  | some r => some (b.data, r.sequence_number, r.approximate_arrival_timestamp)

/-- `InMemoryBucket.get` (bucket.py lines 45–57).  `force = true` delegates to
`__get` unconditionally (and hence raises on an empty buffer, modelled as
`none`).  `force = false` first increments the poll counter, then returns the
batch only when the size or count threshold is met and the buffer is non-empty,
and otherwise returns an empty batch with absent sequence number and timestamp.
The second component of the result is the bucket after the call (the source
mutates `self.__count` in place). -/
def InMemoryBucket.get (b : InMemoryBucket) (force : Bool) :
    Option ((List KinesisRecord × Option Nat × Option Nat) × InMemoryBucket) :=
  if force then
    match b.getPriv with
    | none => none
    | some (d, sq, ts) => some ((d, some sq, some ts), b)
  else
    let b' : InMemoryBucket := { b with count := b.count + 1 }
    let size := b'.data.length
    if size ≥ b'.size_limit ∨ b'.count ≥ b'.count_limit then
      if size > 0 then
        match b'.getPriv with
        | none => none
        | some (d, sq, ts) => some ((d, some sq, some ts), b')
      else some (([], none, none), b')
    else some (([], none, none), b')

/-- `InMemoryBucket.add` (bucket.py lines 59–60): appends one record. -/
def InMemoryBucket.add (b : InMemoryBucket) (record : KinesisRecord) :
    InMemoryBucket :=
  { b with data := b.data ++ [record] }

/-- The shard-iterator acquisition performed by `KinesisShard.__get_iterator`
(streams.py lines 166–195), recorded as the request the engine makes:
  * `jumpToTip` — the overhang branch requesting `ShardIteratorType='LATEST'`;
  * `useContinuation it` — reuse of the continuation token from the last poll;
  * `resumeAfter sq` — a request with `ShardIteratorType='AFTER_SEQUENCE_NUMBER'`
    on the committed sequence number;
  * `defaultType t` — a request with the configured default iterator type. -/
inductive IteratorAcquisition where
  | jumpToTip : IteratorAcquisition
  | useContinuation : String → IteratorAcquisition
  | resumeAfter : Nat → IteratorAcquisition
  | defaultType : String → IteratorAcquisition
  deriving DecidableEq

/-- `KinesisShard.__overhang` (streams.py lines 197–203): true when the last
arrival timestamp is older than the configured overhang interval relative to
now. -/
def overhang (now overhang_interval last_arrival_timestamp : Nat) : Bool :=
  if now - last_arrival_timestamp > overhang_interval then true else false

/-- `KinesisShard.__get_iterator` (streams.py lines 166–195).  When the
protractor (lag detection) is enabled and a supplied last-arrival timestamp is
overhung, the engine requests `LATEST` regardless of the other arguments;
otherwise it uses the continuation token, then the committed sequence number
via `AFTER_SEQUENCE_NUMBER`, then the configured default iterator type. -/
def getIterator (protractor_enable : Bool) (now overhang_interval : Nat)
    (default_iterator_type : String)
    (iterator : Option String) (sequence_number : Option Nat)
    (last_arrival_timestamp : Option Nat) : IteratorAcquisition :=
  let rest : IteratorAcquisition :=
    match iterator with
    | some it => .useContinuation it
    | none =>
      match sequence_number with
      | some sq => .resumeAfter sq
      | none => .defaultType default_iterator_type
  if protractor_enable then
    match last_arrival_timestamp with
    | some ts =>
      if overhang now overhang_interval ts then .jumpToTip else rest
    | none => rest
  else rest

/-- `Consumer.do_transform` (consumer.py lines 194–207): folds the drained batch
through the registered transform hooks, iterating `reversed(self.__transform_funcs)`,
each hook receiving the batch, the shard id, the last sequence number and the
last arrival timestamp (non-optional at this call site, as in the source's
type annotations). -/
def do_transform
    (transform_funcs : List (List KinesisRecord → String → Nat → Nat → List KinesisRecord))
    (data : List KinesisRecord) (shard_id : String)
    (last_sequence_number : Nat) (last_arrival_timestamp : Nat) :
    List KinesisRecord :=
  transform_funcs.reverse.foldl
    (fun d func => func d shard_id last_sequence_number last_arrival_timestamp)
    data

/-- One tick of `ShardMonitor._run` (consumer.py lines 310–333), modelled over
shard ids: `KinesisShard.__eq__` and `__hash__` (streams.py lines 87–91) compare
shards by `self.id` alone, so the Python sets `consumer.shards` and the
re-discovered set behave exactly as sets of shard ids.  The tick computes
`diff_shards = discovered - tracked` and spawns a worker for each member
(`Consumer.spawn_shard` adds it to `consumer.shards`); it never removes anything.
Result: (tracked set after the tick, set of shard ids spawned this tick). -/
def monitorTick (tracked discovered : Finset String) :
    Finset String × Finset String :=
  let diff_shards := discovered \ tracked
  (tracked ∪ diff_shards, diff_shards)

/-- The per-shard configuration read by `KinesisShard.__init__` from the
consumer (streams.py lines 58–79): the protractor toggle (`PROTRACTOR_ENABLE`),
the overhang interval (`PROTRACTOR_OVERHANG_INTERVAL`), the default iterator
type (`SHARD_ITERATOR_TYPE`), and the bucket limits (`BUCKET_SIZE_LIMIT`,
`BUCKET_COUNT_LIMIT`). -/
structure ShardConfig where
  protractor_enable : Bool
  protractor_overhang_interval : Nat
  iterator_type : String
  size_limit : Nat
  count_limit : Nat
  deriving DecidableEq

/-- The state of one `KinesisShard` worker visible to the claims: its bucket,
the checkpointer's entry for this shard (`InMemoryCheckpointer.checkpoint`
overwrites the stored value, checkpointer.py lines 40–44), the current cursor
(recorded as the acquisition descriptor that produced it), and the private
`__closed` flag of the dispatch loop. -/
structure ShardState where
  bucket : InMemoryBucket
  checkpoint : Option Nat
  iterator : IteratorAcquisition
  closed : Bool
  deriving DecidableEq

/-- The iterator acquired by `KinesisShard.__init__` (streams.py lines 76–78):
`__get_iterator` is called with `sequence_number` set to the shard's committed
checkpoint and with no `iterator` and no `last_arrival_timestamp`. -/
def initIterator (cfg : ShardConfig) (now : Nat) (checkpoint : Option Nat) :
    IteratorAcquisition :=
  getIterator cfg.protractor_enable now cfg.protractor_overhang_interval
    cfg.iterator_type none checkpoint none

/-- The shard-worker state produced by `KinesisShard.__init__` (streams.py
lines 58–79): a fresh bucket with the configured limits, the checkpointer's
value for this shard, the initial iterator acquisition, `__closed = False`. -/
def initState (cfg : ShardConfig) (now : Nat) (checkpoint : Option Nat) :
    ShardState :=
  { bucket := { data := [], count := 0, size_limit := cfg.size_limit,
                count_limit := cfg.count_limit },
    checkpoint := checkpoint,
    iterator := initIterator cfg now checkpoint,
    closed := false }

/-- Outcome of the `get_records` wire call inside one poll cycle (streams.py
lines 100–111), supplied by the environment: a successful response with its
record list and optional continuation token (its absence signals permanent
shard closure), or one of the three exception classes `dispatch`
distinguishes. -/
inductive FetchResult where
  | ok : List KinesisRecord → Option String → FetchResult
  | expiredIterator : FetchResult
  | throughputExceeded : FetchResult
  | clientError : FetchResult
  deriving DecidableEq

/-- Behaviour of the user hook chains during one processing step (streams.py
lines 138–150), supplied by the environment: either `do_transform` and
`do_after_consume` both return normally, or some hook raises.  The transformed
batch itself is dead after `do_after_consume` (the source deletes it), so it
does not appear in the state. -/
inductive HookBehavior where
  | succeed : HookBehavior
  | raiseErr : HookBehavior
  deriving DecidableEq

/-- Result of one iteration of the `while not self.__closed` loop of
`KinesisShard.dispatch` (streams.py lines 96–164):
  * `next s` — the iteration finished, the worker sleeps one poll interval and
    loops (this includes the throughput-exceeded retry path);
  * `closedExit s` — `__closed` was set, the loop exits and
    `Consumer.close_shard` removes the worker from supervision;
  * `raised s` — an exception escaped `dispatch` with the effects in `s`
    applied; `KinesisShard._run` catches it, logs it, and the worker
    terminates. -/
inductive CycleResult where
  | next : ShardState → CycleResult
  | closedExit : ShardState → CycleResult
  | raised : ShardState → CycleResult
  deriving DecidableEq

/-- The shard state carried by a cycle result. -/
def CycleResult.state : CycleResult → ShardState
  | .next s => s
  | .closedExit s => s
  | .raised s => s

/-- The processing step of `dispatch` from the drain onward (streams.py lines
137–161), given the result of `bucket.get`: when the drained batch is non-empty
the hooks run, and the `finally` block flushes the bucket and commits the
checkpoint with the batch's last sequence number on both the success path and
the hook-raise path; a raised hook exception is re-raised after the `finally`
block (streams.py lines 151–157) and escapes the loop.  When the batch is empty
the state merely takes the bucket returned by `get` (its incremented poll
counter) and nothing else happens. -/
def processDrained (s1 : ShardState)
    (drain : (List KinesisRecord × Option Nat × Option Nat) × InMemoryBucket)
    (hooks : HookBehavior) : CycleResult :=
  let data := drain.1.1
  let last_sequence_number := drain.1.2.1
  let bucket2 := drain.2
  if data.length > 0 then
    let s2 : ShardState :=
      { s1 with bucket := bucket2.flush, checkpoint := last_sequence_number }
    match hooks with
    | .succeed => if s2.closed then .closedExit s2 else .next s2
    | .raiseErr => .raised s2
  else
    let s2 : ShardState := { s1 with bucket := bucket2 }
    if s2.closed then .closedExit s2 else .next s2

/-- One iteration of `KinesisShard.dispatch` (streams.py lines 96–164).
Fetch classification (lines 99–111): an `ExpiredIteratorException` is re-raised
and escapes; a `ProvisionedThroughputExceededException` is logged, the worker
sleeps and `continue`s with the state untouched; a generic `ClientError` is
logged and control falls through — but `records` still holds the `None` it was
initialised with, so `len(records)` raises `TypeError`, which escapes the loop
with nothing mutated (`raised s`).  On a successful fetch the records are
appended to the bucket, the last arrival timestamp is taken from the final
record when there is one, and the presence of a continuation token decides
between re-acquiring the iterator (passing that token and the last arrival
timestamp, with `sequence_number` left at its `None` default) and setting
`__closed`.  The bucket is then drained with `force = __closed` and the drain
is processed by `processDrained`; a `none` drain models the `IndexError` that
`bucket.get(True)` raises on an empty buffer. -/
def dispatchCycle (cfg : ShardConfig) (now : Nat) (s : ShardState)
    (fetch : FetchResult) (hooks : HookBehavior) : CycleResult :=
  match fetch with
  | .expiredIterator => .raised s
  | .throughputExceeded => .next s
  | .clientError => .raised s
  | .ok records next_iterator =>
    let bl : InMemoryBucket × Option Nat :=
      match records.getLast? with
      | some r => (records.foldl (fun b rec => b.add rec) s.bucket,
                   some r.approximate_arrival_timestamp)
      | none => (s.bucket, none)
    let bucket1 := bl.1
    let last_arrival_timestamp := bl.2
    let ic : IteratorAcquisition × Bool :=
      match next_iterator with
      | some nxt =>
        (getIterator cfg.protractor_enable now cfg.protractor_overhang_interval
           cfg.iterator_type (some nxt) none last_arrival_timestamp, s.closed)
      | none => (s.iterator, true)
    let s1 : ShardState :=
      { bucket := bucket1, checkpoint := s.checkpoint,
        iterator := ic.1, closed := ic.2 }
    match (if ic.2 then bucket1.get true else bucket1.get false) with
    | none => .raised s1
    | some drain => processDrained s1 drain hooks

/-! ## Helper lemmas about the bucket -/

/-- `__get` either raises on an empty buffer or returns the buffered list with
the last record's fields. -/
theorem getPriv_cases (b : InMemoryBucket) :
    (b.data = [] ∧ b.getPriv = none) ∨
    (∃ r, b.data.getLast? = some r ∧
      b.getPriv = some (b.data, r.sequence_number,
        r.approximate_arrival_timestamp)) := by
  unfold InMemoryBucket.getPriv
  split
  next hgl => exact Or.inl ⟨List.getLast?_eq_none_iff.mp hgl, rfl⟩
  next r hgl => exact Or.inr ⟨r, hgl, rfl⟩

/-- Inversion for a successful `__get`. -/
theorem getPriv_some_spec (b : InMemoryBucket) (d : List KinesisRecord)
    (sq ts : Nat) (h : b.getPriv = some (d, sq, ts)) :
    d = b.data ∧ ∃ r, b.data.getLast? = some r ∧ sq = r.sequence_number ∧
      ts = r.approximate_arrival_timestamp := by
  rcases getPriv_cases b with ⟨_, hgp⟩ | ⟨r, hgl, hgp⟩
  · rw [hgp] at h; cases h
  · rw [hgp] at h
    simp only [Option.some.injEq, Prod.mk.injEq] at h
    obtain ⟨h1, h2, h3⟩ := h
    exact ⟨h1.symm, r, hgl, h2.symm, h3.symm⟩

/-- Inversion for a non-raising `bucket.get` call: the returned bucket keeps the
buffered data, and the returned batch is either empty with absent sequence
number or the full buffered list with the last record's sequence number. -/
theorem get_some_spec (b : InMemoryBucket) (force : Bool)
    (data : List KinesisRecord) (lsn lat : Option Nat) (b2 : InMemoryBucket)
    (h : b.get force = some ((data, lsn, lat), b2)) :
    b2.data = b.data ∧
    ((data = [] ∧ lsn = none) ∨
     (data = b.data ∧ ∃ r, b.data.getLast? = some r ∧
       lsn = some r.sequence_number)) := by
  unfold InMemoryBucket.get at h
  split at h
  · split at h
    next => cases h
    next d sq ts hgp =>
      simp only [Option.some.injEq, Prod.mk.injEq] at h
      obtain ⟨⟨h1, h2, h3⟩, h4⟩ := h
      obtain ⟨hd, r, hgl, hsq, _⟩ := getPriv_some_spec b d sq ts hgp
      subst h4
      exact ⟨rfl, Or.inr ⟨h1.symm.trans hd, r, hgl, h2.symm.trans (by rw [hsq])⟩⟩
  · dsimp only at h
    split at h
    · split at h
      · split at h
        next => cases h
        next d sq ts hgp =>
          simp only [Option.some.injEq, Prod.mk.injEq] at h
          obtain ⟨⟨h1, h2, h3⟩, h4⟩ := h
          obtain ⟨hd, r, hgl, hsq, _⟩ :=
            getPriv_some_spec { b with count := b.count + 1 } d sq ts hgp
          subst h4
          exact ⟨rfl, Or.inr ⟨h1.symm.trans hd, r, hgl,
            h2.symm.trans (by rw [hsq])⟩⟩
      · simp only [Option.some.injEq, Prod.mk.injEq] at h
        obtain ⟨⟨h1, h2, h3⟩, h4⟩ := h
        subst h4
        exact ⟨rfl, Or.inl ⟨h1.symm, h2.symm⟩⟩
    · simp only [Option.some.injEq, Prod.mk.injEq] at h
      obtain ⟨⟨h1, h2, h3⟩, h4⟩ := h
      subst h4
      exact ⟨rfl, Or.inl ⟨h1.symm, h2.symm⟩⟩

/-- Appending records by folding `bucket.add` (the `for record in records`
loop of `dispatch`) appends them to the buffered list in order. -/
theorem foldl_add_data (b : InMemoryBucket) (l : List KinesisRecord) :
    (l.foldl (fun acc r => acc.add r) b).data = b.data ++ l := by
  induction l generalizing b with
  | nil => simp
  | cons x xs ih =>
    simp only [List.foldl_cons]
    rw [ih]
    simp [InMemoryBucket.add]

/-! ## Claims about the bucket (C4, C5) -/

/-- C4: the spec states that `get(force=true)` always returns the full buffered
sequence, the sequence number and timestamp being absent when the buffer is
empty, and in particular does not fail on an empty buffer.  The source instead
evaluates `self.__data[-1]` inside `__get`, which raises `IndexError` on an
empty buffer (modelled as `none`): the call fails. -/
theorem get_forced_empty_bucket_raises (b : InMemoryBucket)
    (h : b.data = []) : b.get true = none := by
  unfold InMemoryBucket.get InMemoryBucket.getPriv
  simp [h]

/-- Witness for `get_forced_empty_bucket_raises`: the default-configured bucket
(`BUCKET_SIZE_LIMIT = 10000`, `BUCKET_COUNT_LIMIT = 120`), freshly created and
hence empty, makes `get(force=true)` raise. -/
theorem get_forced_empty_bucket_raises_witness :
    InMemoryBucket.get ⟨[], 0, 10000, 120⟩ true = none :=
  get_forced_empty_bucket_raises _ rfl

/-- C5: a `get(force=false)` call always returns (it never raises), increments
the poll counter and leaves the buffered data intact; the batch is the full
buffered list together with the last record's sequence number and arrival
timestamp exactly when the buffer is non-empty and the size or incremented
count threshold is met, and otherwise the batch is empty with absent sequence
number and timestamp; flushing the returned bucket empties it and resets the
poll counter to zero. -/
theorem get_unforced_characterization (b : InMemoryBucket) :
    ∃ data lsn lat b',
      b.get false = some ((data, lsn, lat), b') ∧
      b'.count = b.count + 1 ∧ b'.data = b.data ∧
      b'.size_limit = b.size_limit ∧ b'.count_limit = b.count_limit ∧
      b'.flush.data = [] ∧ b'.flush.count = 0 ∧
      ((b.data ≠ [] ∧
          (b.data.length ≥ b.size_limit ∨ b.count + 1 ≥ b.count_limit)) →
        data = b.data ∧ ∃ r, b.data.getLast? = some r ∧
          lsn = some r.sequence_number ∧
          lat = some r.approximate_arrival_timestamp) ∧
      ((b.data = [] ∨
          (b.data.length < b.size_limit ∧ b.count + 1 < b.count_limit)) →
        data = [] ∧ lsn = none ∧ lat = none) := by
  by_cases hthr : b.data.length ≥ b.size_limit ∨ b.count + 1 ≥ b.count_limit
  · by_cases hemp : b.data = []
    · refine ⟨[], none, none, { b with count := b.count + 1 }, ?_, rfl, rfl,
        rfl, rfl, rfl, rfl, ?_, ?_⟩
      · unfold InMemoryBucket.get
        simp [hthr, hemp]
      · rintro ⟨h1, _⟩; exact absurd hemp h1
      · intro _; exact ⟨rfl, rfl, rfl⟩
    · rcases getPriv_cases b with ⟨h, _⟩ | ⟨r, hgl, hgp⟩
      · exact absurd h hemp
      · refine ⟨b.data, some r.sequence_number,
          some r.approximate_arrival_timestamp,
          { b with count := b.count + 1 }, ?_, rfl, rfl, rfl, rfl, rfl,
          rfl, ?_, ?_⟩
        · unfold InMemoryBucket.get
          have hlen : 0 < b.data.length := List.length_pos.mpr hemp
          have hgp' : InMemoryBucket.getPriv { b with count := b.count + 1 } =
              some (b.data, r.sequence_number,
                r.approximate_arrival_timestamp) := hgp
          simp [hthr, hlen, hgp']
        · intro _; exact ⟨rfl, r, hgl, rfl, rfl⟩
        · rintro (h | ⟨h1, h2⟩)
          · exact absurd h hemp
          · rcases hthr with h | h
            · omega
            · omega
  · refine ⟨[], none, none, { b with count := b.count + 1 }, ?_, rfl, rfl,
      rfl, rfl, rfl, rfl, ?_, ?_⟩
    · unfold InMemoryBucket.get
      dsimp only
      rw [if_neg (by simp), if_neg hthr]
    · rintro ⟨h1, h2⟩; exact absurd h2 hthr
    · intro _; exact ⟨rfl, rfl, rfl⟩

/-- Witness for `get_unforced_characterization`: a bucket holding one record
with `size_limit = 1` (threshold met), specialised through the theorem. -/
theorem get_unforced_characterization_witness :
    InMemoryBucket.get ⟨[⟨"shardId-000000000000", 7, 3⟩], 0, 1, 5⟩ false
      = some (([⟨"shardId-000000000000", 7, 3⟩], some 7, some 3),
          ⟨[⟨"shardId-000000000000", 7, 3⟩], 1, 1, 5⟩) := by
  obtain ⟨data, lsn, lat, b', h1, h2, h3, h4, h5, _, _, h6, _⟩ :=
    get_unforced_characterization ⟨[⟨"shardId-000000000000", 7, 3⟩], 0, 1, 5⟩
  obtain ⟨hd, r, hgl, hsq, hts⟩ := h6 (by refine ⟨by simp, Or.inl (by simp)⟩)
  cases hgl
  rw [h1, hd, hsq, hts]
  cases b'
  simp only at h2 h3 h4 h5
  simp [h2, h3, h4, h5]

/-! ## Iterator acquisition (C6) -/

/-- C6: iterator acquisition follows the priority order of
`KinesisShard.__get_iterator`: when lag detection is enabled and a known last
arrival timestamp is overhung, the engine requests `LATEST`, discarding both
the continuation token and any committed sequence number; otherwise it uses
the continuation token when present; otherwise `AFTER_SEQUENCE_NUMBER` on the
committed sequence number when present; otherwise the configured default
iterator type. -/
theorem iterator_acquisition_priority (enable : Bool) (now interval : Nat)
    (itype : String) (it : Option String) (sq : Option Nat)
    (ts : Option Nat) :
    ((enable = true ∧ ∃ t, ts = some t ∧ overhang now interval t = true) →
      getIterator enable now interval itype it sq ts = .jumpToTip) ∧
    ((¬ (enable = true ∧ ∃ t, ts = some t ∧
          overhang now interval t = true)) →
      ((∀ i, it = some i →
          getIterator enable now interval itype it sq ts
            = .useContinuation i) ∧
       (it = none → (∀ n, sq = some n →
          getIterator enable now interval itype it sq ts = .resumeAfter n) ∧
        (sq = none →
          getIterator enable now interval itype it sq ts
            = .defaultType itype)))) := by
  constructor
  · rintro ⟨henable, t, hts, hov⟩
    subst henable
    subst hts
    simp [getIterator, hov]
  · intro hneg
    have hrest : getIterator enable now interval itype it sq ts =
        (match it with
         | some i => IteratorAcquisition.useContinuation i
         | none =>
           match sq with
           | some n => IteratorAcquisition.resumeAfter n
           | none => IteratorAcquisition.defaultType itype) := by
      unfold getIterator
      cases enable with
      | false => rfl
      | true =>
        cases ts with
        | none => rfl
        | some t =>
          have hov : overhang now interval t = false := by
            cases hov : overhang now interval t
            · rfl
            · exact absurd ⟨rfl, t, rfl, hov⟩ hneg
          simp [hov]
    refine ⟨?_, ?_⟩
    · intro i hit; rw [hrest, hit]
    · intro hit
      refine ⟨?_, ?_⟩
      · intro n hsq; rw [hrest, hit, hsq]
      · intro hsq; rw [hrest, hit, hsq]

/-- Witness for `iterator_acquisition_priority`: lag detection enabled, last
arrival 1 at now 5 with threshold 1 (overhung), and both a continuation token
and a committed sequence number present — the engine still jumps to tip. -/
theorem iterator_acquisition_priority_witness :
    getIterator true 5 1 "TRIM_HORIZON" (some "continuation-token") (some 9)
      (some 1) = .jumpToTip :=
  (iterator_acquisition_priority true 5 1 "TRIM_HORIZON"
    (some "continuation-token") (some 9) (some 1)).1 ⟨rfl, 1, rfl, rfl⟩

/-! ## Transform hook chain (C9) -/

/-- A concrete transform hook appending a marker record with sequence 7. -/
def tfA : List KinesisRecord → String → Nat → Nat → List KinesisRecord :=
  fun d _ _ _ => d ++ [⟨"shardId-000000000000", 7, 3⟩]

/-- A concrete transform hook appending a marker record with sequence 8. -/
def tfB : List KinesisRecord → String → Nat → Nat → List KinesisRecord :=
  fun d _ _ _ => d ++ [⟨"shardId-000000000000", 8, 4⟩]

/-- C9 counterexample: with hooks `tfA` then `tfB` registered in that order,
`do_transform` iterates `reversed(funcs)`, so `tfB` runs FIRST and the result
is `tfA (tfB batch)` — `[record8, record7]` on the empty batch — while the
claim's composition `tfB (tfA batch)` gives `[record7, record8]`, a different
batch. -/
theorem transform_order_counterexample :
    do_transform [tfA, tfB] [] "shardId-000000000000" 8 4
      = [⟨"shardId-000000000000", 8, 4⟩, ⟨"shardId-000000000000", 7, 3⟩] ∧
    tfB (tfA [] "shardId-000000000000" 8 4) "shardId-000000000000" 8 4
      = [⟨"shardId-000000000000", 7, 3⟩, ⟨"shardId-000000000000", 8, 4⟩] ∧
    ([⟨"shardId-000000000000", 8, 4⟩, ⟨"shardId-000000000000", 7, 3⟩] :
        List KinesisRecord)
      ≠ [⟨"shardId-000000000000", 7, 3⟩, ⟨"shardId-000000000000", 8, 4⟩] :=
  ⟨rfl, rfl, by decide⟩

/-- C9 (amended): the transform chain is composed in REVERSE registration
order: for hooks `f1, ..., fn` registered in that order, `do_transform`
returns `f1 (f2 (... (fn batch)))` — the LAST-registered hook runs first and
each earlier-registered hook receives the later one's output (a right fold
over the registration list). -/
theorem transform_reverse_composition
    (funcs : List (List KinesisRecord → String → Nat → Nat →
      List KinesisRecord))
    (data : List KinesisRecord) (shard_id : String) (lsn lat : Nat) :
    do_transform funcs data shard_id lsn lat
      = funcs.foldr (fun f d => f d shard_id lsn lat) data := by
  unfold do_transform
  rw [List.foldl_reverse]

/-! ## Resharding monitor (C8) -/

/-- C8: one monitor tick spawns exactly the shard ids discovered but not yet
tracked (the set difference), adds them to the tracked set, and never removes
a tracked worker; concretely, tracking `{A, B}` with a discovery returning
`{A, B, C}` spawns exactly one worker, for `C`, leaving `A` and `B`
tracked. -/
theorem monitor_tick_spawns_difference :
    (∀ tracked discovered : Finset String,
      (monitorTick tracked discovered).2 = discovered \ tracked ∧
      (monitorTick tracked discovered).1
        = tracked ∪ (discovered \ tracked) ∧
      tracked ⊆ (monitorTick tracked discovered).1) ∧
    (monitorTick {"shard-A", "shard-B"}
        {"shard-A", "shard-B", "shard-C"}).2 = {"shard-C"} ∧
    (monitorTick {"shard-A", "shard-B"}
        {"shard-A", "shard-B", "shard-C"}).1
      = {"shard-A", "shard-B", "shard-C"} ∧
    ({"shard-C"} : Finset String).card = 1 := by
  refine ⟨fun tracked discovered =>
    ⟨rfl, rfl, Finset.subset_union_left⟩, ?_, ?_, rfl⟩
  · decide
  · decide

/-- Witness for `monitor_tick_spawns_difference`: a tracked worker survives a
tick that discovers a disjoint shard set. -/
theorem monitor_tick_spawns_difference_witness :
    "shard-A" ∈ (monitorTick {"shard-A"} {"shard-B"}).1 :=
  (monitor_tick_spawns_difference.1 {"shard-A"} {"shard-B"}).2.2 (by decide)

/-! ## Poll-cycle error handling (C1, C2, C3) -/

/-- C1: on a generic `ClientError` from `get_records`, the source's handler
only logs and falls through; `records` still holds the `None` it was
initialised with, so `len(records)` raises `TypeError`, which escapes
`dispatch` — the worker aborts (`CycleResult.raised`) instead of skipping the
cycle and retrying on the next tick.  The state is indeed unmutated (the crash
happens before any buffer or cursor update), but the worker does not survive
the cycle as the spec claims. -/
theorem client_error_aborts_worker (cfg : ShardConfig) (now : Nat)
    (s : ShardState) (hooks : HookBehavior) :
    dispatchCycle cfg now s .clientError hooks = .raised s := rfl

/-- Shape of the processing step on a non-empty drained batch: in BOTH hook
outcomes the resulting state has the bucket flushed and the checkpoint
overwritten with the drain's last sequence number; when a hook raises, the
cycle ends in `raised` (the re-raised exception escapes the loop). -/
theorem processDrained_nonempty (s1 : ShardState)
    (data : List KinesisRecord) (lsn lat : Option Nat) (b2 : InMemoryBucket)
    (hooks : HookBehavior) (hne : data.length > 0) :
    (processDrained s1 ((data, lsn, lat), b2) hooks).state
      = { s1 with bucket := b2.flush, checkpoint := lsn } ∧
    (hooks = .raiseErr → processDrained s1 ((data, lsn, lat), b2) hooks
      = .raised { s1 with bucket := b2.flush, checkpoint := lsn }) := by
  unfold processDrained
  dsimp only
  rw [if_pos hne]
  cases hooks with
  | succeed =>
    refine ⟨?_, fun h => by cases h⟩
    dsimp only
    split <;> rfl
  | raiseErr => exact ⟨rfl, fun _ => rfl⟩

/-- Shape of the processing step on an empty drained batch: nothing is
processed, the checkpoint is untouched, and the state merely takes the bucket
returned by `get`. -/
theorem processDrained_empty (s1 : ShardState) (lsn lat : Option Nat)
    (b2 : InMemoryBucket) (hooks : HookBehavior) :
    (processDrained s1 (([], lsn, lat), b2) hooks).state
      = { s1 with bucket := b2 } := by
  unfold processDrained
  dsimp only
  rw [if_neg (by simp)]
  split <;> rfl

/-- The processing step never touches the cursor: the state's iterator field is
whatever the cycle set it to before the drain. -/
theorem processDrained_iterator (s1 : ShardState)
    (drain : (List KinesisRecord × Option Nat × Option Nat) × InMemoryBucket)
    (hooks : HookBehavior) :
    (processDrained s1 drain hooks).state.iterator = s1.iterator := by
  unfold processDrained
  dsimp only
  split
  · cases hooks with
    | succeed => dsimp only; split <;> rfl
    | raiseErr => rfl
  · split <;> rfl

/-- C2: whenever a non-empty batch has been drained from the bucket by
`bucket.get` (forced or not), the processing step flushes the bucket and
commits the checkpoint with the batch's last sequence number on every exit
path — for every hook behaviour, including a raising hook — because both
actions sit in the `finally` block of `dispatch`. -/
theorem drained_batch_flush_and_checkpoint (s1 : ShardState)
    (b1 : InMemoryBucket) (force : Bool) (data : List KinesisRecord)
    (lsn lat : Option Nat) (b2 : InMemoryBucket)
    (hget : b1.get force = some ((data, lsn, lat), b2)) (hne : data ≠ [])
    (hooks : HookBehavior) :
    ∃ r, data.getLast? = some r ∧ lsn = some r.sequence_number ∧
      (processDrained s1 ((data, lsn, lat), b2) hooks).state.bucket.data
        = [] ∧
      (processDrained s1 ((data, lsn, lat), b2) hooks).state.bucket.count
        = 0 ∧
      (processDrained s1 ((data, lsn, lat), b2) hooks).state.checkpoint
        = some r.sequence_number := by
  obtain ⟨hb2, hcases⟩ := get_some_spec b1 force data lsn lat b2 hget
  rcases hcases with ⟨hd, _⟩ | ⟨hd, r, hgl, hsq⟩
  · exact absurd hd hne
  · obtain ⟨hst, _⟩ := processDrained_nonempty s1 data lsn lat b2 hooks
      (List.length_pos.mpr hne)
    refine ⟨r, ?_, hsq, ?_, ?_, ?_⟩
    · rw [hd]; exact hgl
    · rw [hst]; rfl
    · rw [hst]; rfl
    · rw [hst]
      show lsn = some r.sequence_number
      exact hsq

/-- Witness for `drained_batch_flush_and_checkpoint`: a one-record bucket with
`size_limit = 1` drained by `get(force=false)`, processed with a raising hook
chain — the bucket still gets flushed and the checkpoint still becomes the
batch's last sequence number, 7. -/
theorem drained_batch_flush_and_checkpoint_witness :
    ∃ r : KinesisRecord,
      ([⟨"shardId-000000000000", 7, 3⟩] : List KinesisRecord).getLast?
        = some r ∧
      (some 7 : Option Nat) = some r.sequence_number ∧
      (processDrained
          ⟨⟨[], 0, 1, 5⟩, none, .defaultType "TRIM_HORIZON", false⟩
          (([⟨"shardId-000000000000", 7, 3⟩], some 7, some 3),
            ⟨[⟨"shardId-000000000000", 7, 3⟩], 1, 1, 5⟩)
          .raiseErr).state.bucket.data = [] ∧
      (processDrained
          ⟨⟨[], 0, 1, 5⟩, none, .defaultType "TRIM_HORIZON", false⟩
          (([⟨"shardId-000000000000", 7, 3⟩], some 7, some 3),
            ⟨[⟨"shardId-000000000000", 7, 3⟩], 1, 1, 5⟩)
          .raiseErr).state.bucket.count = 0 ∧
      (processDrained
          ⟨⟨[], 0, 1, 5⟩, none, .defaultType "TRIM_HORIZON", false⟩
          (([⟨"shardId-000000000000", 7, 3⟩], some 7, some 3),
            ⟨[⟨"shardId-000000000000", 7, 3⟩], 1, 1, 5⟩)
          .raiseErr).state.checkpoint = some r.sequence_number :=
  drained_batch_flush_and_checkpoint
    ⟨⟨[], 0, 1, 5⟩, none, .defaultType "TRIM_HORIZON", false⟩
    ⟨[⟨"shardId-000000000000", 7, 3⟩], 0, 1, 5⟩ false
    [⟨"shardId-000000000000", 7, 3⟩] (some 7) (some 3)
    ⟨[⟨"shardId-000000000000", 7, 3⟩], 1, 1, 5⟩ rfl (by decide) .raiseErr

/-- C3 counterexample: a concrete cycle in which the fetch returns one record,
the bucket threshold drains it, and a hook raises.  The cycle ends in
`CycleResult.raised` — the exception escapes the poll loop and the worker
terminates (it is caught only by `KinesisShard._run`, which logs and ends the
greenlet) — not in `CycleResult.next`, so the worker does NOT return to
polling this shard as the claim states. -/
theorem hook_exception_continue_counterexample :
    dispatchCycle ⟨false, 30, "TRIM_HORIZON", 1, 5⟩ 0
      ⟨⟨[], 0, 1, 5⟩, none, .defaultType "TRIM_HORIZON", false⟩
      (.ok [⟨"shardId-000000000000", 7, 3⟩] (some "token-2")) .raiseErr
      = .raised ⟨⟨[], 0, 1, 5⟩, some 7, .useContinuation "token-2", false⟩ :=
  rfl

/-- C3 (amended): a transform or post-consume hook exception on a non-empty
drained batch terminates the shard worker: the error is logged with shard
context, the cleanup block still flushes the bucket and commits the
checkpoint, and then the exception is re-raised and escapes the poll loop
(`CycleResult.raised`); `KinesisShard._run` catches and logs it and the worker
stops rather than returning to polling. -/
theorem hook_exception_terminates_worker (s1 : ShardState)
    (data : List KinesisRecord) (lsn lat : Option Nat) (b2 : InMemoryBucket)
    (hne : data ≠ []) :
    processDrained s1 ((data, lsn, lat), b2) .raiseErr
      = .raised { s1 with bucket := b2.flush, checkpoint := lsn } :=
  (processDrained_nonempty s1 data lsn lat b2 .raiseErr
    (List.length_pos.mpr hne)).2 rfl

/-- Witness for `hook_exception_terminates_worker` at a concrete drained
batch. -/
theorem hook_exception_terminates_worker_witness :
    processDrained ⟨⟨[], 0, 1, 5⟩, none, .defaultType "TRIM_HORIZON", false⟩
      (([⟨"shardId-000000000000", 7, 3⟩], some 7, some 3),
        ⟨[⟨"shardId-000000000000", 7, 3⟩], 1, 1, 5⟩) .raiseErr
      = .raised ⟨⟨[], 0, 1, 5⟩, some 7, .defaultType "TRIM_HORIZON", false⟩ :=
  hook_exception_terminates_worker
    ⟨⟨[], 0, 1, 5⟩, none, .defaultType "TRIM_HORIZON", false⟩
    [⟨"shardId-000000000000", 7, 3⟩] (some 7) (some 3)
    ⟨[⟨"shardId-000000000000", 7, 3⟩], 1, 1, 5⟩ (by decide)

/-! ## Overhang requires a last arrival timestamp (C10) -/

/-- C10: the overhang jump-to-tip can only happen when a last arrival
timestamp is supplied to the acquisition routine.  (1) With no timestamp,
`__get_iterator` never takes the overhang branch, whatever the configuration;
(2) in particular the acquisition performed at worker start never jumps to
tip; and (3) a poll cycle whose fetch returned zero records passes `None` as
the last arrival timestamp, so the re-acquisition simply reuses the
continuation token — even when lag detection is enabled and the shard's data
is arbitrarily stale. -/
theorem no_overhang_without_last_arrival (cfg : ShardConfig) (now : Nat) :
    (∀ (enable : Bool) (now2 interval : Nat) (itype : String)
        (it : Option String) (sq : Option Nat),
      getIterator enable now2 interval itype it sq none ≠ .jumpToTip) ∧
    (∀ cp, initIterator cfg now cp ≠ .jumpToTip) ∧
    (∀ (s : ShardState) (nxt : String) (hooks : HookBehavior),
      (dispatchCycle cfg now s (.ok [] (some nxt)) hooks).state.iterator
        = .useContinuation nxt) := by
  have h1 : ∀ (enable : Bool) (now2 interval : Nat) (itype : String)
      (it : Option String) (sq : Option Nat),
      getIterator enable now2 interval itype it sq none ≠ .jumpToTip := by
    intro enable now2 interval itype it sq
    unfold getIterator
    cases enable <;> cases it <;> cases sq <;> simp
  refine ⟨h1, fun cp => h1 _ _ _ _ _ _, ?_⟩
  intro s nxt hooks
  have hit : getIterator cfg.protractor_enable now
      cfg.protractor_overhang_interval cfg.iterator_type (some nxt) none none
      = .useContinuation nxt := by
    unfold getIterator
    cases cfg.protractor_enable <;> rfl
  unfold dispatchCycle
  dsimp only
  split
  next => exact hit
  next drain _ => rw [processDrained_iterator]; exact hit

/-- Witness for `no_overhang_without_last_arrival`: with lag detection enabled,
a zero threshold and an arbitrarily late `now`, a cycle that fetched zero
records still reuses the continuation token, and an acquisition without a
timestamp never jumps to tip. -/
theorem no_overhang_without_last_arrival_witness :
    getIterator true 100 0 "LATEST" none none none ≠ .jumpToTip ∧
    (dispatchCycle ⟨true, 0, "TRIM_HORIZON", 1, 5⟩ 100
        ⟨⟨[], 0, 1, 5⟩, none, .defaultType "TRIM_HORIZON", false⟩
        (.ok [] (some "token-9")) .succeed).state.iterator
      = .useContinuation "token-9" :=
  ⟨(no_overhang_without_last_arrival ⟨true, 0, "TRIM_HORIZON", 1, 5⟩ 100).1
      true 100 0 "LATEST" none none,
   (no_overhang_without_last_arrival ⟨true, 0, "TRIM_HORIZON", 1, 5⟩ 100).2.2
      ⟨⟨[], 0, 1, 5⟩, none, .defaultType "TRIM_HORIZON", false⟩ "token-9"
      .succeed⟩

/-! ## Checkpoint monotonicity (C7) -/

/-- Invariant tying a worker's committed checkpoint to its buffered records:
every buffered record's sequence number lies strictly after the committed
value.  It holds at `__init__` (empty bucket) and is preserved by every poll
cycle under the stream's ordering guarantee. -/
def CheckpointInv (s : ShardState) : Prop :=
  ∀ r ∈ s.bucket.data, ∀ c, s.checkpoint = some c → c < r.sequence_number

/-- The stream's ordering guarantee for one successful fetch: every record
returned by `get_records` lies strictly after everything this worker has
already buffered or committed for the shard.  This holds for each of the
cursor sources (`AFTER_SEQUENCE_NUMBER` resume, continuation token, and the
`LATEST` overhang jump), since sequence numbers increase monotonically within
a shard and each cursor points past the data already consumed. -/
def FreshRecords (s : ShardState) (records : List KinesisRecord) : Prop :=
  ∀ r ∈ records,
    (∀ b ∈ s.bucket.data, b.sequence_number < r.sequence_number) ∧
    (∀ c, s.checkpoint = some c → c < r.sequence_number)

/-- `FreshRecords` demanded only of successful fetch outcomes. -/
def FreshFetch (s : ShardState) (fetch : FetchResult) : Prop :=
  ∀ records nxt, fetch = FetchResult.ok records nxt → FreshRecords s records

/-- Checkpoint evolution over one cycle: either no write happened (the stored
value is unchanged) or the newly written value lies strictly after any
previously written value for this shard. -/
def CheckpointAdvances (s : ShardState) (res : CycleResult) : Prop :=
  res.state.checkpoint = s.checkpoint ∨
    ∃ c', res.state.checkpoint = some c' ∧
      ∀ c, s.checkpoint = some c → c < c'

/-- Worker states reachable under the stream's ordering guarantee: the state
built by `KinesisShard.__init__` (for any committed checkpoint, covering both
fresh starts and resume-from-checkpoint), and any state the poll loop
continues from (`CycleResult.next`) after a cycle with a fresh fetch. -/
inductive Reachable (cfg : ShardConfig) : ShardState → Prop where
  | init : ∀ now cp, Reachable cfg (initState cfg now cp)
  | step : ∀ s now fetch hooks s', Reachable cfg s → FreshFetch s fetch →
      dispatchCycle cfg now s fetch hooks = .next s' → Reachable cfg s'

/-- A successful-fetch cycle is the drain-and-process of an intermediate state
whose bucket holds the old data with the fetched records appended and whose
checkpoint is untouched. -/
theorem dispatchCycle_ok_shape (cfg : ShardConfig) (now : Nat)
    (s : ShardState) (records : List KinesisRecord) (nxt : Option String)
    (hooks : HookBehavior) :
    ∃ (s1 : ShardState) (force : Bool),
      s1.bucket.data = s.bucket.data ++ records ∧
      s1.checkpoint = s.checkpoint ∧
      dispatchCycle cfg now s (.ok records nxt) hooks
        = match s1.bucket.get force with
          | none => CycleResult.raised s1
          | some drain => processDrained s1 drain hooks := by
  cases hgl : records.getLast? with
  | none =>
    have hrec : records = [] := List.getLast?_eq_none_iff.mp hgl
    subst hrec
    cases nxt with
    | some n =>
      refine ⟨⟨s.bucket, s.checkpoint,
        getIterator cfg.protractor_enable now cfg.protractor_overhang_interval
          cfg.iterator_type (some n) none none, s.closed⟩, s.closed,
        by simp, rfl, ?_⟩
      unfold dispatchCycle
      cases hc : s.closed <;> rfl
    | none =>
      refine ⟨⟨s.bucket, s.checkpoint, s.iterator, true⟩, true,
        by simp, rfl, ?_⟩
      unfold dispatchCycle
      rfl
  | some r =>
    cases nxt with
    | some n =>
      refine ⟨⟨records.foldl (fun b rec => b.add rec) s.bucket, s.checkpoint,
        getIterator cfg.protractor_enable now cfg.protractor_overhang_interval
          cfg.iterator_type (some n) none
          (some r.approximate_arrival_timestamp), s.closed⟩, s.closed,
        foldl_add_data s.bucket records, rfl, ?_⟩
      unfold dispatchCycle
      dsimp only
      rw [hgl]
      cases hc : s.closed <;> rfl
    | none =>
      refine ⟨⟨records.foldl (fun b rec => b.add rec) s.bucket, s.checkpoint,
        s.iterator, true⟩, true, foldl_add_data s.bucket records, rfl, ?_⟩
      unfold dispatchCycle
      dsimp only
      rw [hgl]
      rfl

/-- Draining and processing from a state satisfying the invariant preserves the
invariant and only ever advances the checkpoint. -/
theorem drain_process_inv (s1 : ShardState) (force : Bool)
    (hooks : HookBehavior) (hext : CheckpointInv s1) :
    CheckpointInv (match s1.bucket.get force with
        | none => CycleResult.raised s1
        | some drain => processDrained s1 drain hooks).state ∧
    CheckpointAdvances s1 (match s1.bucket.get force with
        | none => CycleResult.raised s1
        | some drain => processDrained s1 drain hooks) := by
  cases hget : s1.bucket.get force with
  | none => exact ⟨hext, Or.inl rfl⟩
  | some drain =>
    obtain ⟨⟨data, lsn, lat⟩, b2⟩ := drain
    dsimp only
    obtain ⟨hb2, hcases⟩ := get_some_spec s1.bucket force data lsn lat b2 hget
    rcases hcases with ⟨hd, _⟩ | ⟨hd, r, hgl, hsq⟩
    · subst hd
      have hres := processDrained_empty s1 lsn lat b2 hooks
      constructor
      · rw [hres]
        intro rr hrr c hc
        exact hext rr (hb2 ▸ hrr) c hc
      · unfold CheckpointAdvances
        left
        rw [hres]
    · have hne : data ≠ [] := by
        intro h
        rw [h] at hd
        rw [← hd] at hgl
        cases hgl
      obtain ⟨hst, _⟩ := processDrained_nonempty s1 data lsn lat b2 hooks
        (List.length_pos.mpr hne)
      constructor
      · rw [hst]
        intro rr hrr c hc
        simp [InMemoryBucket.flush] at hrr
      · unfold CheckpointAdvances
        right
        refine ⟨r.sequence_number, ?_, ?_⟩
        · rw [hst]
          show lsn = some r.sequence_number
          exact hsq
        · intro c hc
          exact hext r (List.mem_of_getLast?_eq_some hgl) c hc

/-- One poll cycle preserves the checkpoint invariant and only advances the
checkpoint, for every fetch outcome and hook behaviour. -/
theorem cycle_checkpoint_step (cfg : ShardConfig) (now : Nat)
    (s : ShardState) (fetch : FetchResult) (hooks : HookBehavior)
    (hinv : CheckpointInv s) (hfresh : FreshFetch s fetch) :
    CheckpointInv (dispatchCycle cfg now s fetch hooks).state ∧
    CheckpointAdvances s (dispatchCycle cfg now s fetch hooks) := by
  cases fetch with
  | expiredIterator => exact ⟨hinv, Or.inl rfl⟩
  | throughputExceeded => exact ⟨hinv, Or.inl rfl⟩
  | clientError => exact ⟨hinv, Or.inl rfl⟩
  | ok records nxt =>
    obtain ⟨s1, force, hdata, hcp, heq⟩ :=
      dispatchCycle_ok_shape cfg now s records nxt hooks
    have hext : CheckpointInv s1 := by
      intro r hr c hc
      rw [hdata] at hr
      rcases List.mem_append.mp hr with h | h
      · exact hinv r h c (hcp.symm.trans hc)
      · exact (hfresh records nxt rfl r h).2 c (hcp.symm.trans hc)
    obtain ⟨h1, h2⟩ := drain_process_inv s1 force hooks hext
    rw [heq]
    refine ⟨h1, ?_⟩
    rcases h2 with h | ⟨c', hc', hlt⟩
    · exact Or.inl (h.trans hcp)
    · exact Or.inr ⟨c', hc', fun c hc => hlt c (hcp.trans hc)⟩

/-- The state built by `__init__` satisfies the checkpoint invariant (its
bucket is empty). -/
theorem initState_inv (cfg : ShardConfig) (now : Nat) (cp : Option Nat) :
    CheckpointInv (initState cfg now cp) := by
  intro r hr
  simp [initState] at hr

/-- Every reachable worker state satisfies the checkpoint invariant. -/
theorem reachable_inv (cfg : ShardConfig) (s : ShardState)
    (h : Reachable cfg s) : CheckpointInv s := by
  induction h with
  | init now cp => exact initState_inv cfg now cp
  | step s now fetch hooks s' hre hfresh heq ih =>
    have hstep := (cycle_checkpoint_step cfg now s fetch hooks ih hfresh).1
    rw [heq] at hstep
    exact hstep

/-- C7: from every reachable worker state (initial acquisition, resume from a
committed checkpoint, after overhang jumps, and on the shard-closure cycle),
one more poll cycle — under the stream's within-shard ordering guarantee —
either leaves the shard's checkpoint untouched or overwrites it with a
sequence number strictly later in the shard's order than any previously
written value: the engine never writes an older checkpoint. -/
theorem checkpoint_monotone (cfg : ShardConfig) (now : Nat) (s : ShardState)
    (fetch : FetchResult) (hooks : HookBehavior)
    (hreach : Reachable cfg s) (hfresh : FreshFetch s fetch) :
    CheckpointAdvances s (dispatchCycle cfg now s fetch hooks) :=
  (cycle_checkpoint_step cfg now s fetch hooks
    (reachable_inv cfg s hreach) hfresh).2

/-- Witness for `checkpoint_monotone`: the freshly initialised worker (no
committed checkpoint) performing one cycle that fetches a single record. -/
theorem checkpoint_monotone_witness :
    CheckpointAdvances (initState ⟨false, 30, "TRIM_HORIZON", 1, 5⟩ 0 none)
      (dispatchCycle ⟨false, 30, "TRIM_HORIZON", 1, 5⟩ 0
        (initState ⟨false, 30, "TRIM_HORIZON", 1, 5⟩ 0 none)
        (.ok [⟨"shardId-000000000000", 7, 3⟩] (some "token-2")) .succeed) :=
  checkpoint_monotone ⟨false, 30, "TRIM_HORIZON", 1, 5⟩ 0
    (initState ⟨false, 30, "TRIM_HORIZON", 1, 5⟩ 0 none)
    (.ok [⟨"shardId-000000000000", 7, 3⟩] (some "token-2")) .succeed
    (Reachable.init 0 none)
    (by
      intro records nxt h
      cases h
      intro r hr
      refine ⟨?_, ?_⟩
      · intro b hb
        simp [initState] at hb
      · intro c hc
        simp [initState] at hc)

end Kinsumer
